import Mathlib

/-!
Shallow embedding of the deal-lifecycle subsystem of the UnityMiniCRM
repository (`backend/tasks/models.py` and `backend/tasks/views.py`):
the `Deal` model with its `clean`/`save` validation and deal-code
generation, the `DealStageHistory` audit record, the
`DealViewSet.change_stage` action, `Company.active_deals`, and the
`SoftDeleteMixin`.

The relational store is modelled as an explicit `Store` value holding the
committed deal rows and history rows; the autocommit behaviour is
modelled by threading the store through each operation (an
`objects.create` commits immediately; `Model.save` runs `full_clean`
first and commits only if validation passes).  Dates and timestamps are
modelled as integers (day / instant numbers); money amounts as integers.
-/


/-- The seven values of `Deal.STAGE_CHOICES` (models.py lines 333-341). -/
inductive Stage
  | lead
  | qualified
  | proposal
  | negotiation
  | closed_won
  | closed_lost
  | on_hold
deriving DecidableEq, Repr

/-- The stored (database) string of a stage, i.e. the first component of
the corresponding `STAGE_CHOICES` pair. -/
def Stage.value : Stage → String
  | .lead => "lead"
  | .qualified => "qualified"
  | .proposal => "proposal"
  | .negotiation => "negotiation"
  | .closed_won => "closed_won"
  | .closed_lost => "closed_lost"
  | .on_hold => "on_hold"

/-- Parse a raw request string against `valid_stages = [choice[0] for
choice in Deal.STAGE_CHOICES]` (views.py line 331). -/
def parseStage (s : String) : Option Stage :=
  if s = "lead" then some .lead
  else if s = "qualified" then some .qualified
  else if s = "proposal" then some .proposal
  else if s = "negotiation" then some .negotiation
  else if s = "closed_won" then some .closed_won
  else if s = "closed_lost" then some .closed_lost
  else if s = "on_hold" then some .on_hold
  else none

/-- The `stage_probability_map` of `Deal.clean` (models.py lines 464-472):
the inclusive probability band allowed for each stage. -/
def stageBand : Stage → Int × Int
  | .lead => (0, 30)
  | .qualified => (30, 50)
  | .proposal => (50, 70)
  | .negotiation => (70, 90)
  | .closed_won => (95, 100)
  | .closed_lost => (0, 5)
  | .on_hold => (0, 100)

/-- The `stage_probability_map` of `DealViewSet.change_stage`
(views.py lines 352-356): the default probability written on a stage
change. -/
def stageDefault : Stage → Int
  | .lead => 20
  | .qualified => 40
  | .proposal => 60
  | .negotiation => 80
  | .closed_won => 100
  | .closed_lost => 0
  | .on_hold => 50

/-- First components of `Deal.LOST_REASON_CHOICES` (models.py 343-349). -/
def lostReasonChoices : List String :=
  ["price", "competitor", "timing", "features", "other"]

/-- A committed/in-memory `Deal` row, restricted to the fields the
lifecycle subsystem reads or writes.  `id` stands for the UUID primary
key; dates are day numbers. -/
structure Deal where
  id : Nat
  dealCode : String
  amount : Int
  stage : Stage
  probability : Int
  expectedCloseDate : Option Int
  actualCloseDate : Option Int
  lostReason : String
  lostNotes : String
  isActive : Bool
  deletedAt : Option Int
deriving DecidableEq, Repr

/-- A `DealStageHistory` row (models.py lines 850-862).  `changedAt` is
the `auto_now_add` creation timestamp. -/
structure DealStageHistory where
  dealId : Nat
  fromStage : Stage
  toStage : Stage
  changedBy : Nat
  changedAt : Int
  notes : String
deriving DecidableEq, Repr

/-- The relational store: all committed deal rows and history rows. -/
structure Store where
  deals : List Deal
  history : List DealStageHistory
deriving DecidableEq, Repr

/-- Validation error kinds raised by `Deal.full_clean` (field validators,
`Deal.clean`, and unique validation). -/
inductive VErr
  | amountNegative
  | probabilityRange
  | invalidLostReason
  | probabilityOutOfBand
  | closeDateOrder
  | duplicateDealCode
deriving DecidableEq, Repr

/-- Model of `Deal.clean` (models.py lines 459-488): the
stage/probability band check followed by the close-date ordering
check. -/
def Deal.cleanErr (d : Deal) : Option VErr :=
  let band := stageBand d.stage
  if d.probability < band.1 || band.2 < d.probability then
    some .probabilityOutOfBand
  else
    match d.actualCloseDate, d.expectedCloseDate with
    | some a, some e => if a < e then some .closeDateOrder else none
    | _, _ => none

/-- Field-level validators on the modelled fields: `MinValueValidator(0)`
on `amount`, `MinValueValidator(0)`/`MaxValueValidator(100)` on
`probability`, and the `LOST_REASON_CHOICES` check on `lost_reason`
(blank allowed since the field has `blank=True`). -/
def Deal.cleanFieldsErr (d : Deal) : Option VErr :=
  if d.amount < 0 then some .amountNegative
  else if d.probability < 0 || 100 < d.probability then some .probabilityRange
  else if d.lostReason ≠ "" && !(lostReasonChoices.contains d.lostReason) then
    some .invalidLostReason
  else none

/-- Model of `validate_unique` on the `deal_code` unique column: another
committed row (different primary key) with the same code is a
violation. -/
def Deal.uniqueErr (deals : List Deal) (d : Deal) : Option VErr :=
  if deals.any (fun o => o.id ≠ d.id && o.dealCode = d.dealCode) then
    some .duplicateDealCode
  else none

/-- Model of `full_clean`: field validators, then `clean`, then unique
validation; the first failure is reported. -/
def Deal.fullClean (deals : List Deal) (d : Deal) : Option VErr :=
  match d.cleanFieldsErr with
  | some e => some e
  | none =>
    match d.cleanErr with
    | some e => some e
    | none => Deal.uniqueErr deals d

/-- Does a code match the regex `^DEAL-\d{4}-\d{3}$` used by the
deal-code query in `Deal.save` (models.py line 495)? -/
def matchesDealCode (s : String) : Bool :=
  match s.toList with
  | ['D', 'E', 'A', 'L', '-', y1, y2, y3, y4, '-', n1, n2, n3] =>
      y1.isDigit && y2.isDigit && y3.isDigit && y4.isDigit &&
      n1.isDigit && n2.isDigit && n3.isDigit
  | _ => false

/-- Lexicographic (bytewise, as in the database collation) comparison of
character lists; all deal-code characters are ASCII, where codepoint
order and byte order agree. -/
def charListLt : List Char → List Char → Bool
  | [], [] => false
  | [], _ :: _ => true
  | _ :: _, [] => false
  | a :: as, b :: bs =>
    if a.toNat < b.toNat then true
    else if b.toNat < a.toNat then false
    else charListLt as bs

/-- Lexicographic comparison of strings via their character lists. -/
def strLt (a b : String) : Bool :=
  charListLt a.toList b.toList

/-- The SQL `MAX` aggregate over a string column: the greatest element in
lexicographic order, or `none` on an empty set. -/
def maxCode : List String → Option String
  | [] => none
  | c :: cs =>
    match maxCode cs with
    | none => some c
    | some m => if strLt m c then some c else some m

/-- Split a character list on the dash character, as the split method on
a dash does. -/
def splitDashList : List Char → List (List Char)
  | [] => [[]]
  | c :: cs =>
    if c = '-' then [] :: splitDashList cs
    else
      match splitDashList cs with
      | [] => [[c]]
      | h :: t => (c :: h) :: t

/-- Read a list of decimal digit characters as a number, as the int
conversion does on a digit string. -/
def decimalVal (l : List Char) : Nat :=
  l.foldl (fun acc c => acc * 10 + (c.toNat - 48)) 0

/-- The numeric suffix after the last dash of a code, as parsed at
models.py line 499: split on dashes, take the last segment, read it as a
number. -/
def dealCodeSuffix (s : String) : Nat :=
  decimalVal (((splitDashList s.toList).getLast?).getD [])

/-- The character of a decimal digit. -/
def digitChar (n : Nat) : Char :=
  Char.ofNat (48 + n)

/-- Decimal digits of a number, most significant first; the fuel bounds
the recursion depth and 20 covers every number in range here. -/
def natDigitsAux (fuel : Nat) (n : Nat) : List Char :=
  match fuel with
  | 0 => []
  | fuel + 1 =>
    if n < 10 then [digitChar n]
    else natDigitsAux fuel (n / 10) ++ [digitChar (n % 10)]

/-- Decimal rendering of a number, as the str conversion does. -/
def natToString (n : Nat) : String :=
  String.mk (natDigitsAux 20 n)

/-- Zero-pad a number to width 3, as the percent-03d format of the
source does (wider numbers print in full). -/
def pad3 (n : Nat) : String :=
  if n < 10 then "00" ++ natToString n
  else if n < 100 then "0" ++ natToString n
  else natToString n

/-- Assemble a deal code from year and sequence number (models.py line
506). -/
def mkDealCode (year : Nat) (n : Nat) : String :=
  "DEAL-" ++ natToString year ++ "-" ++ pad3 n

/-- The deal-code generation block of `Deal.save` (models.py lines
492-506): take the `MAX` of all committed codes matching
`^DEAL-\d{4}-\d{3}$` (codes of every year), continue its numeric suffix,
or start at 1 when no code matches; the year segment is the current
year. -/
def generateDealCode (codes : List String) (year : Nat) : String :=
  match maxCode (codes.filter matchesDealCode) with
  | some m => mkDealCode year (dealCodeSuffix m + 1)
  | none => mkDealCode year 1

/-- Insert or replace the row with the given primary key (the
INSERT-or-UPDATE effect of a model save). -/
def Store.upsert (deals : List Deal) (d : Deal) : List Deal :=
  if deals.any (fun o => o.id = d.id) then
    deals.map (fun o => if o.id = d.id then d else o)
  else deals ++ [d]

/-- Model of `Deal.save` (models.py lines 490-509): generate a
`deal_code` when none is set, run `full_clean`, and only then commit the
row.  A validation failure raises before anything is written, so the
error case returns no store. -/
def Deal.save (store : Store) (d : Deal) (year : Nat) :
    Except VErr (Deal × Store) :=
  let d :=
    if d.dealCode = "" then
      { d with dealCode := generateDealCode (store.deals.map (·.dealCode)) year }
    else d
  match Deal.fullClean store.deals d with
  | some e => .error e
  | none => .ok (d, { store with deals := Store.upsert store.deals d })

/-- The POST body read by `DealViewSet.change_stage`: the stage key
(absent or a string), and the notes, lost_reason and lost_notes keys,
each read with a default of the empty string when absent.  A
`probability` key may be present in the body but the action never reads
it. -/
structure StageRequest where
  stage : Option String
  notes : Option String
  lostReason : Option String
  lostNotes : Option String
  probability : Option Int
deriving DecidableEq, Repr

/-- The two 400-level rejections of `change_stage` (views.py 324-337). -/
inductive BadRequestKind
  | stageRequired
  | invalidStage
deriving DecidableEq, Repr

/-- Outcome of a `change_stage` call.  `validationFailed` carries the
store as committed when `deal.save()` raised: the history row written by
`DealStageHistory.objects.create` has already been committed at that
point (no transaction wraps the action). -/
inductive ChangeStageResult
  | badRequest (e : BadRequestKind)
  | validationFailed (e : VErr) (store : Store)
  | ok (deal : Deal) (store : Store)
deriving DecidableEq, Repr

/-- The `DealStageHistory.objects.create(...)` call of `change_stage`
(views.py lines 339-346): `from_stage` is the stage of the deal before
any mutation, `to_stage` the requested stage, `changed_at` the creation
instant. -/
def stageHistRecord (deal : Deal) (st : Stage) (actor : Nat) (now : Int)
    (notes : String) : DealStageHistory :=
  { dealId := deal.id, fromStage := deal.stage, toStage := st
    changedBy := actor, changedAt := now, notes := notes }

/-- The in-memory deal mutation of `change_stage` (views.py lines
348-365): set the stage, overwrite the probability with the stage
default, and when closing set `actual_close_date` (and, for
`closed_lost`, the lost fields from the request). -/
def applyStageUpdate (deal : Deal) (req : StageRequest) (st : Stage)
    (today : Int) : Deal :=
  let d1 := { deal with stage := st, probability := stageDefault st }
  if st = .closed_won || st = .closed_lost then
    let dc := { d1 with actualCloseDate := some today }
    if st = .closed_lost then
      { dc with lostReason := req.lostReason.getD ("")
                lostNotes := req.lostNotes.getD ("") }
    else dc
  else d1

/-- Model of `DealViewSet.change_stage` (views.py lines 318-370): reject
a missing or unknown stage; otherwise commit a history record
(autocommit — this happens before the deal is validated), apply the
stage update, and save the deal. -/
def changeStage (store : Store) (deal : Deal) (req : StageRequest)
    (actor : Nat) (now : Int) (today : Int) (year : Nat) : ChangeStageResult :=
  let newStageStr := req.stage.getD ("")
  if newStageStr = "" then .badRequest .stageRequired
  else
    match parseStage newStageStr with
    | none => .badRequest .invalidStage
    | some st =>
      let store1 : Store :=
        { store with
            history := stageHistRecord deal st actor now (req.notes.getD (""))
              :: store.history }
      match Deal.save store1 (applyStageUpdate deal req st today) year with
      | .error e => .validationFailed e store1
      | .ok (d', store2) => .ok d' store2

/-- The deal returned on a successful `change_stage`. -/
def ChangeStageResult.okDeal : ChangeStageResult → Option Deal
  | .ok d _ => some d
  | _ => none

/-- The committed store after a successful `change_stage`. -/
def ChangeStageResult.okStore : ChangeStageResult → Option Store
  | .ok _ s => some s
  | _ => none

/-- The committed store left behind when `deal.save()` failed inside
`change_stage`. -/
def ChangeStageResult.failStore : ChangeStageResult → Option Store
  | .validationFailed _ s => some s
  | _ => none

/-- Is the outcome a 400 rejection? -/
def ChangeStageResult.isBadRequest : ChangeStageResult → Bool
  | .badRequest _ => true
  | _ => false

/-- Model of `Company.active_deals` (models.py lines 168-176): the deals
of the company filtered to active ones, excluding rows whose stored
stage string is the literal string won or the literal string lost. -/
def activeDeals (deals : List Deal) : List Deal :=
  (deals.filter (fun d => d.isActive)).filter
    (fun d => !(d.stage.value = "won" || d.stage.value = "lost"))

/-- An entity supporting `SoftDeleteMixin` (models.py lines 19-38): the
two mixin fields plus the remaining fields of the concrete model,
abstracted as `rest`. -/
structure SoftDeleteEntity (α : Type) where
  isActive : Bool
  deletedAt : Option Int
  rest : α

/-- Model of a save restricted by update_fields to is_active and
deleted_at.  The mixin calls the save method of the instance, which
dispatches to the overridden save of the concrete model; Company,
Contact, Deal and Task all run full_clean there before the base save,
so the commit happens only when the validation of the in-memory
instance passes — `clean` stands for that validation.  On success the
committed row takes only the two update fields from the in-memory
instance; on a validation failure the save raises and nothing is
committed, modelled by `none`. -/
def saveActiveDeleted {α : Type} (clean : SoftDeleteEntity α → Bool)
    (db self : SoftDeleteEntity α) : Option (SoftDeleteEntity α) :=
  if clean self then
    some { db with isActive := self.isActive, deletedAt := self.deletedAt }
  else none

/-- Model of `SoftDeleteMixin.soft_delete` (models.py lines 27-32)
acting on the committed row `db`: clear the active flag, set the
deletion time, and save restricted to those two fields through the save
method of the concrete model. -/
def softDelete {α : Type} (clean : SoftDeleteEntity α → Bool)
    (db self : SoftDeleteEntity α) (now : Int) :
    Option (SoftDeleteEntity α) :=
  saveActiveDeleted clean db
    { self with isActive := false, deletedAt := some now }

/-- Model of `SoftDeleteMixin.restore` (models.py lines 34-38). -/
def restoreEntity {α : Type} (clean : SoftDeleteEntity α → Bool)
    (db self : SoftDeleteEntity α) : Option (SoftDeleteEntity α) :=
  saveActiveDeleted clean db
    { self with isActive := true, deletedAt := none }

/-- The fields of a `Task` read by its clean method, beyond the
soft-delete pair (models.py lines 694-715). -/
structure TaskFields where
  dueDate : Option Int
  status : String
  estimatedHours : Option Int
  actualHours : Option Int
deriving DecidableEq, Repr

/-- Model of `Task.clean` (models.py lines 694-715) at the current
instant `now`: a set due date in the past combined with a status other
than completed is rejected; a set nonzero estimated-hours value not
above zero is rejected; a set nonzero negative actual-hours value is
rejected (the nonzero conditions mirror the truthiness tests of the
source). -/
def taskCleanOk (now : Int) (t : SoftDeleteEntity TaskFields) : Bool :=
  (match t.rest.dueDate with
   | some d => !(decide (d < now) && !(t.rest.status == "completed"))
   | none => true) &&
  (match t.rest.estimatedHours with
   | some h => !(decide (h ≠ 0) && decide (h ≤ 0))
   | none => true) &&
  (match t.rest.actualHours with
   | some h => !(decide (h ≠ 0) && decide (h < 0))
   | none => true)

/-- A committed task past its due date (day 10) and not completed. -/
def overdueTask : SoftDeleteEntity TaskFields :=
  { isActive := true, deletedAt := none
    rest := { dueDate := some 10, status := "pending"
              estimatedHours := none, actualHours := none } }

/-- A committed task with no due date, which always validates. -/
def freeTask : SoftDeleteEntity TaskFields :=
  { isActive := true, deletedAt := none
    rest := { dueDate := none, status := "pending"
              estimatedHours := none, actualHours := none } }

/-- Is a stage terminal in the sense of the specification? -/
def Stage.isTerminal (s : Stage) : Bool :=
  s = .closed_won || s = .closed_lost

/-- The probability band invariant for a deal. -/
def Deal.inBand (d : Deal) : Prop :=
  (stageBand d.stage).1 ≤ d.probability ∧ d.probability ≤ (stageBand d.stage).2

instance (d : Deal) : Decidable d.inBand := by
  unfold Deal.inBand; infer_instance

/-- Check used in the amended C4 statement: a lost_reason value accepted
by the field validator (blank, or one of the choices). -/
def lostReasonValid (lr : String) : Bool :=
  lr = "" || lostReasonChoices.contains lr

/-! Concrete sample rows used by counterexamples and witnesses. -/

/-- A committed deal in the terminal stage closed_won. -/
def sampleWonDeal : Deal :=
  { id := 1, dealCode := "DEAL-2024-001", amount := 0, stage := .closed_won
    probability := 100, expectedCloseDate := none, actualCloseDate := some 10
    lostReason := "", lostNotes := "", isActive := true, deletedAt := none }

/-- A store holding only `sampleWonDeal`. -/
def sampleWonStore : Store := { deals := [sampleWonDeal], history := [] }

/-- A request asking for the qualified stage. -/
def reqQualified : StageRequest :=
  { stage := some "qualified", notes := none, lostReason := none
    lostNotes := none, probability := none }

/-- A deal in negotiation whose expected close date (day 100) is after
the day the transition below runs (day 50). -/
def sampleNegDeal : Deal :=
  { id := 2, dealCode := "DEAL-2024-002", amount := 5000, stage := .negotiation
    probability := 80, expectedCloseDate := some 100, actualCloseDate := none
    lostReason := "", lostNotes := "", isActive := true, deletedAt := none }

/-- A store holding only `sampleNegDeal`. -/
def sampleNegStore : Store := { deals := [sampleNegDeal], history := [] }

/-- A request asking for the closed_won stage. -/
def reqClosedWon : StageRequest :=
  { stage := some "closed_won", notes := some "closing", lostReason := none
    lostNotes := none, probability := none }

/-- The store left behind by the failed transition of `sampleNegDeal`:
deal rows untouched, one history row committed. -/
def sampleNegFailStore : Store :=
  { deals := [sampleNegDeal]
    history := [stageHistRecord sampleNegDeal .closed_won 7 60 "closing"] }

/-- A deal committed in an earlier year, the only row in its store. -/
def prevYearDeal : Deal :=
  { id := 5, dealCode := "DEAL-2023-005", amount := 0, stage := .lead
    probability := 0, expectedCloseDate := none, actualCloseDate := none
    lostReason := "", lostNotes := "", isActive := true, deletedAt := none }

/-- A store whose only deal code is from year 2023. -/
def prevYearStore : Store := { deals := [prevYearDeal], history := [] }

/-- A second deal committed in another earlier year. -/
def prevYearDealB : Deal :=
  { id := 8, dealCode := "DEAL-2022-010", amount := 0, stage := .lead
    probability := 0, expectedCloseDate := none, actualCloseDate := none
    lostReason := "", lostNotes := "", isActive := true, deletedAt := none }

/-- A store with two committed codes, one from 2022 and one from
2023. -/
def multiYearStore : Store :=
  { deals := [prevYearDealB, prevYearDeal], history := [] }

/-- A new deal with no code yet, to be allocated one on save. -/
def freshDeal : Deal :=
  { id := 6, dealCode := "", amount := 0, stage := .lead
    probability := 0, expectedCloseDate := none, actualCloseDate := none
    lostReason := "", lostNotes := "", isActive := true, deletedAt := none }

/-- A second new deal with no code yet. -/
def freshDealB : Deal :=
  { id := 7, dealCode := "", amount := 0, stage := .lead
    probability := 0, expectedCloseDate := none, actualCloseDate := none
    lostReason := "", lostNotes := "", isActive := true, deletedAt := none }

/-- A store with no rows at all. -/
def emptyStore : Store := { deals := [], history := [] }

/-- A deal in negotiation with no expected close date. -/
def sampleOpenDeal : Deal :=
  { id := 3, dealCode := "DEAL-2024-003", amount := 5000, stage := .negotiation
    probability := 80, expectedCloseDate := none, actualCloseDate := none
    lostReason := "", lostNotes := "", isActive := true, deletedAt := none }

/-- A store holding only `sampleOpenDeal`. -/
def sampleOpenStore : Store := { deals := [sampleOpenDeal], history := [] }

/-- A request asking for closed_lost without any lost_reason key. -/
def reqLostNoReason : StageRequest :=
  { stage := some "closed_lost", notes := none, lostReason := none
    lostNotes := none, probability := none }

/-- A request asking for closed_lost with lost_reason price. -/
def reqLostPrice : StageRequest :=
  { stage := some "closed_lost", notes := none, lostReason := some "price"
    lostNotes := none, probability := none }

/-- The deal row committed by the successful transition of
`sampleWonDeal` to qualified. -/
def sampleWonAfter : Deal :=
  { sampleWonDeal with stage := .qualified, probability := 40 }

/-- The store committed by that transition. -/
def sampleWonAfterStore : Store :=
  { deals := [sampleWonAfter]
    history := [stageHistRecord sampleWonDeal .qualified 7 100 ""] }

/-- The deal committed by saving `freshDeal` into the empty store. -/
def freshSaved : Deal := { freshDeal with dealCode := "DEAL-2024-001" }

/-- The store committed by that save. -/
def freshSavedStore : Store := { deals := [freshSaved], history := [] }

/-- A deal whose probability 10 is outside the proposal band 50-70. -/
def badBandDeal : Deal :=
  { id := 9, dealCode := "DEAL-2024-009", amount := 0, stage := .proposal
    probability := 10, expectedCloseDate := none, actualCloseDate := none
    lostReason := "", lostNotes := "", isActive := true, deletedAt := none }

/-- A deal in the lead stage. -/
def sampleLeadDeal : Deal :=
  { id := 4, dealCode := "DEAL-2024-004", amount := 100, stage := .lead
    probability := 0, expectedCloseDate := none, actualCloseDate := none
    lostReason := "", lostNotes := "", isActive := true, deletedAt := none }

/-- A store holding only `sampleLeadDeal`. -/
def sampleLeadStore : Store := { deals := [sampleLeadDeal], history := [] }

/-- A request for the qualified stage carrying an explicit probability of
45 in its body. -/
def reqQualified45 : StageRequest :=
  { reqQualified with probability := some 45 }

/-- The deal row committed by the transition of `sampleLeadDeal` to
qualified. -/
def sampleLeadAfter : Deal :=
  { sampleLeadDeal with stage := .qualified, probability := 40 }

/-- Inversion of a successful `Deal.save`: validation passed, only the
deal code may differ from the input, and the store gained exactly the
saved row. -/
theorem Deal.save_ok_inv {store : Store} {d : Deal} {year : Nat}
    {d' : Deal} {s' : Store}
    (h : Deal.save store d year = .ok (d', s')) :
    Deal.fullClean store.deals d' = none ∧
    d'.id = d.id ∧ d'.stage = d.stage ∧ d'.probability = d.probability ∧
    d'.amount = d.amount ∧
    d'.expectedCloseDate = d.expectedCloseDate ∧
    d'.actualCloseDate = d.actualCloseDate ∧
    d'.lostReason = d.lostReason ∧ d'.lostNotes = d.lostNotes ∧
    d'.dealCode = (if d.dealCode = "" then
      generateDealCode (store.deals.map (·.dealCode)) year else d.dealCode) ∧
    s'.history = store.history ∧ s'.deals = Store.upsert store.deals d' := by
  unfold Deal.save at h
  by_cases hc : d.dealCode = "" <;> simp only [hc, if_true, if_false, reduceIte] at h
  · cases hfc : Deal.fullClean store.deals
      { d with dealCode := generateDealCode (store.deals.map (·.dealCode)) year } <;>
      rw [hfc] at h
    · simp only [Except.ok.injEq, Prod.mk.injEq] at h
      obtain ⟨rfl, rfl⟩ := h
      exact ⟨hfc, rfl, rfl, rfl, rfl, rfl, rfl, rfl, rfl, by rw [if_pos hc], rfl, rfl⟩
    · exact absurd h (by simp)
  · cases hfc : Deal.fullClean store.deals d <;> rw [hfc] at h
    · simp only [Except.ok.injEq, Prod.mk.injEq] at h
      obtain ⟨rfl, rfl⟩ := h
      exact ⟨hfc, rfl, rfl, rfl, rfl, rfl, rfl, rfl, rfl, by rw [if_neg hc], rfl, rfl⟩
    · exact absurd h (by simp)

/-- A deal passing `full_clean` satisfies the probability band. -/
theorem fullClean_none_inBand {deals : List Deal} {d : Deal}
    (h : Deal.fullClean deals d = none) : d.inBand := by
  unfold Deal.fullClean at h
  cases hcf : d.cleanFieldsErr <;> rw [hcf] at h
  · cases hce : d.cleanErr <;> rw [hce] at h
    · unfold Deal.cleanErr at hce
      by_cases hb : d.probability < (stageBand d.stage).1 ∨
          (stageBand d.stage).2 < d.probability
      · exfalso
        have hbb : (d.probability < (stageBand d.stage).1 ||
            (stageBand d.stage).2 < d.probability) = true := by
          simp [hb]
        simp only [hbb, if_true] at hce
        exact absurd hce (by simp)
      · push_neg at hb
        exact ⟨hb.1, hb.2⟩
    · exact absurd h (by simp)
  · exact absurd h (by simp)

theorem applyStageUpdate_stage (deal : Deal) (req : StageRequest) (st : Stage)
    (today : Int) : (applyStageUpdate deal req st today).stage = st := by
  cases st <;> rfl

theorem applyStageUpdate_probability (deal : Deal) (req : StageRequest)
    (st : Stage) (today : Int) :
    (applyStageUpdate deal req st today).probability = stageDefault st := by
  cases st <;> rfl

theorem applyStageUpdate_closed (deal : Deal) (req : StageRequest) (st : Stage)
    (today : Int) (h : st.isTerminal = true) :
    (applyStageUpdate deal req st today).actualCloseDate = some today := by
  cases st <;> first | rfl | exact absurd h (by decide)

theorem applyStageUpdate_lost (deal : Deal) (req : StageRequest) (today : Int) :
    (applyStageUpdate deal req .closed_lost today).lostReason
        = req.lostReason.getD ("") ∧
      (applyStageUpdate deal req .closed_lost today).lostNotes
        = req.lostNotes.getD ("") := by
  exact ⟨rfl, rfl⟩

/-- Inversion of a successful `change_stage`: the request named a valid
stage, the deal took that stage with its default probability and passed
validation, and exactly one history row was prepended. -/
theorem changeStage_ok_inv {store : Store} {deal : Deal} {req : StageRequest}
    {actor : Nat} {now today : Int} {year : Nat} {d' : Deal} {s' : Store}
    (h : changeStage store deal req actor now today year = .ok d' s') :
    ∃ st, parseStage (req.stage.getD ("")) = some st ∧
      d'.stage = st ∧ d'.probability = stageDefault st ∧
      Deal.fullClean store.deals d' = none ∧
      s'.history =
        stageHistRecord deal st actor now (req.notes.getD (""))
          :: store.history ∧
      (st.isTerminal = true → d'.actualCloseDate = some today) ∧
      (st = .closed_lost → d'.lostReason = req.lostReason.getD ("") ∧
        d'.lostNotes = req.lostNotes.getD ("")) := by
  unfold changeStage at h
  by_cases hs : req.stage.getD ("") = ""
  · rw [if_pos hs] at h; exact absurd h (by simp)
  · rw [if_neg hs] at h
    cases hp : parseStage (req.stage.getD ("")) with
    | none => simp only [hp] at h; exact absurd h (by simp)
    | some st =>
      simp only [hp] at h
      refine ⟨st, rfl, ?_⟩
      cases hsave : Deal.save
          { store with
              history := (stageHistRecord deal st actor now (req.notes.getD (""))
                :: store.history) }
          (applyStageUpdate deal req st today) year with
      | error e =>
          rw [hsave] at h
          exact absurd h (by simp)
      | ok p =>
        obtain ⟨d'', store2⟩ := p
        rw [hsave] at h
        simp only [ChangeStageResult.ok.injEq] at h
        obtain ⟨rfl, rfl⟩ := h
        obtain ⟨hfc, hid, hstage, hprob, ham, hexp, hact, hlr, hln, hcode,
          hhist, hdl⟩ := Deal.save_ok_inv hsave
        refine ⟨?_, ?_, ?_, ?_, ?_, ?_⟩
        · rw [hstage, applyStageUpdate_stage]
        · rw [hprob, applyStageUpdate_probability]
        · exact hfc
        · rw [hhist]
        · intro ht
          rw [hact, applyStageUpdate_closed _ _ _ _ ht]
        · intro ht; subst ht
          rw [hlr, hln]
          exact applyStageUpdate_lost deal req today

/-- Inversion of a `change_stage` call whose deal save failed: the
history row had already been committed and the deal rows are untouched. -/
theorem changeStage_fail_inv {store : Store} {deal : Deal} {req : StageRequest}
    {actor : Nat} {now today : Int} {year : Nat} {e : VErr} {s' : Store}
    (h : changeStage store deal req actor now today year =
      .validationFailed e s') :
    ∃ st, parseStage (req.stage.getD ("")) = some st ∧
      s'.deals = store.deals ∧
      s'.history =
        stageHistRecord deal st actor now (req.notes.getD (""))
          :: store.history := by
  unfold changeStage at h
  by_cases hs : req.stage.getD ("") = ""
  · rw [if_pos hs] at h; exact absurd h (by simp)
  · rw [if_neg hs] at h
    cases hp : parseStage (req.stage.getD ("")) with
    | none => simp only [hp] at h; exact absurd h (by simp)
    | some st =>
      simp only [hp] at h
      refine ⟨st, rfl, ?_⟩
      cases hsave : Deal.save
          { store with
              history := (stageHistRecord deal st actor now (req.notes.getD (""))
                :: store.history) }
          (applyStageUpdate deal req st today) year with
      | error e' =>
          rw [hsave] at h
          simp only [ChangeStageResult.validationFailed.injEq] at h
          obtain ⟨rfl, rfl⟩ := h
          exact ⟨rfl, rfl⟩
      | ok p =>
          obtain ⟨d'', store2⟩ := p
          rw [hsave] at h
          exact absurd h (by simp)

/-- A `change_stage` call whose request carries a recognised stage string
is never rejected as a bad request, whatever the stage of the deal. -/
theorem changeStage_not_badRequest {store : Store} {deal : Deal}
    {req : StageRequest} {actor : Nat} {now today : Int} {year : Nat}
    {s : String} {st : Stage}
    (hreq : req.stage = some s) (hparse : parseStage s = some st) :
    ∀ e, changeStage store deal req actor now today year ≠ .badRequest e := by
  intro e h
  have hgd : req.stage.getD ("") = s := by rw [hreq]; rfl
  have hne : s ≠ "" := by
    intro hs0
    rw [hs0] at hparse
    exact absurd hparse (by simp [parseStage])
  unfold changeStage at h
  rw [hgd, if_neg hne] at h
  simp only [hparse] at h
  cases hsave : Deal.save
      { store with
          history := (stageHistRecord deal st actor now (req.notes.getD (""))
            :: store.history) }
      (applyStageUpdate deal req st today) year with
  | error e' => rw [hsave] at h; exact absurd h (by simp)
  | ok p =>
      obtain ⟨d'', store2⟩ := p
      rw [hsave] at h
      exact absurd h (by simp)

/-- A deal whose probability violates the band of its stage can never be
saved: `full_clean` raises before anything is committed. -/
theorem save_not_ok_of_not_inBand {store : Store} {d : Deal} {year : Nat}
    (hb : ¬ d.inBand) :
    ∀ d' s', Deal.save store d year ≠ .ok (d', s') := by
  intro d' s' h
  obtain ⟨hfc, hid, hstage, hprob, _⟩ := Deal.save_ok_inv h
  have hband : d'.inBand := fullClean_none_inBand hfc
  apply hb
  unfold Deal.inBand at hband ⊢
  rw [hstage, hprob] at hband
  exact hband

/-- C1.  The claim: for every deal in stage closed_won or closed_lost,
any subsequent change_stage call fails with InvalidTransitionError and
the deal state is unchanged.  Counterexample: the code has no
terminal-stage check — on `sampleWonDeal` (stage closed_won) the call
succeeds and commits stage qualified. -/
theorem C1_counterexample :
    Stage.isTerminal sampleWonDeal.stage = true ∧
    (changeStage sampleWonStore sampleWonDeal reqQualified 7 100 50
        2024).okDeal.map Deal.stage = some Stage.qualified ∧
    Stage.qualified ≠ sampleWonDeal.stage :=
  ⟨rfl, rfl, by decide⟩

/-- C1 (amended): change_stage performs no terminal-state check — a call
on a deal in closed_won or closed_lost whose request carries a valid
stage string is never rejected as a bad request, and when the save
succeeds the stage of the deal becomes the requested stage and one
history row is committed. -/
theorem C1_terminal_not_blocked (store : Store) (deal : Deal)
    (req : StageRequest) (actor : Nat) (now today : Int) (year : Nat)
    (s : String) (st : Stage)
    (_hterm : deal.stage.isTerminal = true)
    (hreq : req.stage = some s) (hparse : parseStage s = some st) :
    (∀ e, changeStage store deal req actor now today year ≠ .badRequest e) ∧
    (∀ d' s', changeStage store deal req actor now today year = .ok d' s' →
      d'.stage = st ∧ s'.history.length = store.history.length + 1) := by
  refine ⟨changeStage_not_badRequest hreq hparse, ?_⟩
  intro d' s' h
  obtain ⟨st', hp', hstage, _, _, hhist, _⟩ := changeStage_ok_inv h
  have hgd : req.stage.getD ("") = s := by rw [hreq]; rfl
  rw [hgd, hparse] at hp'
  have hst : st = st' := by injection hp'
  subst hst
  exact ⟨hstage, by rw [hhist]; rfl⟩

/-- Witness for C1 (amended) at the concrete closed_won deal. -/
theorem C1_terminal_not_blocked_witness :
    (∀ e, changeStage sampleWonStore sampleWonDeal reqQualified 7 100 50 2024 ≠
      .badRequest e) ∧
    (∀ d' s',
      changeStage sampleWonStore sampleWonDeal reqQualified 7 100 50 2024 =
        .ok d' s' →
      d'.stage = Stage.qualified ∧
      s'.history.length = sampleWonStore.history.length + 1) :=
  C1_terminal_not_blocked sampleWonStore sampleWonDeal reqQualified 7 100 50
    2024 "qualified" Stage.qualified (by decide) rfl (by decide)

/-- C2.  The claim: the transition is atomic — either both the history
record and the updated deal are committed, or neither.  Counterexample:
on `sampleNegDeal` the requested closed_won transition sets an actual
close date (day 50) before the expected close date (day 100), so the
deal save fails — yet the history row, committed first and outside any
transaction, remains: the failed call leaves the deal rows unchanged and
one new history row. -/
theorem C2_counterexample :
    (changeStage sampleNegStore sampleNegDeal reqClosedWon 7 60 50
        2024).failStore.map (fun s => (s.deals, s.history.length)) =
      some ([sampleNegDeal], 1) := rfl

/-- C2 (amended): the transition is not atomic — the history row is
committed before the deal is validated and saved, so whenever the deal
save fails the resulting store keeps the deal rows unchanged but
contains the freshly committed history row. -/
theorem C2_not_atomic (store : Store) (deal : Deal) (req : StageRequest)
    (actor : Nat) (now today : Int) (year : Nat) (e : VErr) (s' : Store)
    (h : changeStage store deal req actor now today year =
      .validationFailed e s') :
    s'.deals = store.deals ∧
    ∃ st, parseStage (req.stage.getD ("")) = some st ∧
      s'.history =
        stageHistRecord deal st actor now (req.notes.getD (""))
          :: store.history := by
  obtain ⟨st, hp, hd, hh⟩ := changeStage_fail_inv h
  exact ⟨hd, st, hp, hh⟩

/-- Witness for C2 (amended) at the concrete failing transition. -/
theorem C2_not_atomic_witness :
    sampleNegFailStore.deals = sampleNegStore.deals ∧
    ∃ st, parseStage (reqClosedWon.stage.getD ("")) = some st ∧
      sampleNegFailStore.history =
        stageHistRecord sampleNegDeal st 7 60 (reqClosedWon.notes.getD (""))
          :: sampleNegStore.history :=
  C2_not_atomic sampleNegStore sampleNegDeal reqClosedWon 7 60 50 2024
    VErr.closeDateOrder sampleNegFailStore rfl

/-- C3.  The claim: when no deal codes exist yet for the current year,
the allocated suffix is 1 regardless of codes from earlier years.
Counterexample: the allocation query matches codes of every year, so
with only the 2023 code DEAL-2023-005 committed, a deal saved in 2024
gets DEAL-2024-006, not DEAL-2024-001. -/
theorem C3_counterexample :
    prevYearStore.deals.map Deal.dealCode = ["DEAL-2023-005"] ∧
    (Deal.save prevYearStore freshDeal 2024).toOption.map
      (fun p => p.1.dealCode) = some "DEAL-2024-006" ∧
    ("DEAL-2024-006" : String) ≠ "DEAL-2024-001" :=
  ⟨rfl, by decide, by decide⟩

/-- Two characters with the same codepoint are equal. -/
theorem char_toNat_inj {a b : Char} (h : a.toNat = b.toNat) : a = b := by
  have ha := Char.ofNat_toNat a
  have hb := Char.ofNat_toNat b
  rw [← ha, ← hb, h]

/-- Two strings with the same character list are equal. -/
theorem string_toList_inj {s t : String} (h : s.toList = t.toList) : s = t := by
  cases s; cases t
  simp only [String.toList] at h
  rw [h]

/-- The lexicographic comparison is irreflexive. -/
theorem charListLt_irrefl (l : List Char) : charListLt l l = false := by
  induction l with
  | nil => rfl
  | cons a as ih =>
    unfold charListLt
    rw [if_neg (Nat.lt_irrefl a.toNat), if_neg (Nat.lt_irrefl a.toNat)]
    exact ih

/-- The lexicographic comparison is transitive. -/
theorem charListLt_trans {a b c : List Char} (h1 : charListLt a b = true)
    (h2 : charListLt b c = true) : charListLt a c = true := by
  induction a generalizing b c with
  | nil =>
    cases b with
    | nil => exact absurd h1 (by simp [charListLt])
    | cons y ys =>
      cases c with
      | nil => exact absurd h2 (by simp [charListLt])
      | cons z zs => rfl
  | cons x xs ih =>
    cases b with
    | nil => exact absurd h1 (by simp [charListLt])
    | cons y ys =>
      cases c with
      | nil => exact absurd h2 (by simp [charListLt])
      | cons z zs =>
        unfold charListLt at h1 h2 ⊢
        by_cases hxy : x.toNat < y.toNat
        · by_cases hyz : y.toNat < z.toNat
          · rw [if_pos (Nat.lt_trans hxy hyz)]
          · by_cases hzy : z.toNat < y.toNat
            · rw [if_neg hyz, if_pos hzy] at h2
              exact absurd h2 (by simp)
            · have hyzeq : y.toNat = z.toNat :=
                Nat.le_antisymm (Nat.le_of_not_lt hzy) (Nat.le_of_not_lt hyz)
              rw [if_pos (hyzeq ▸ hxy)]
        · by_cases hyx : y.toNat < x.toNat
          · rw [if_neg hxy, if_pos hyx] at h1
            exact absurd h1 (by simp)
          · rw [if_neg hxy, if_neg hyx] at h1
            have hxyeq : x.toNat = y.toNat :=
              Nat.le_antisymm (Nat.le_of_not_lt hyx) (Nat.le_of_not_lt hxy)
            by_cases hyz : y.toNat < z.toNat
            · rw [if_pos (hxyeq ▸ hyz)]
            · by_cases hzy : z.toNat < y.toNat
              · rw [if_neg hyz, if_pos hzy] at h2
                exact absurd h2 (by simp)
              · rw [if_neg hyz, if_neg hzy] at h2
                have hyzeq : y.toNat = z.toNat :=
                  Nat.le_antisymm (Nat.le_of_not_lt hzy) (Nat.le_of_not_lt hyz)
                have hnxz : ¬ x.toNat < z.toNat := by omega
                have hnzx : ¬ z.toNat < x.toNat := by omega
                rw [if_neg hnxz, if_neg hnzx]
                exact ih h1 h2

/-- Two lists neither of which is lexicographically below the other are
equal. -/
theorem charListLt_antisymm {a b : List Char} (h1 : charListLt a b = false)
    (h2 : charListLt b a = false) : a = b := by
  induction a generalizing b with
  | nil =>
    cases b with
    | nil => rfl
    | cons y ys => exact absurd h1 (by simp [charListLt])
  | cons x xs ih =>
    cases b with
    | nil => exact absurd h2 (by simp [charListLt])
    | cons y ys =>
      unfold charListLt at h1 h2
      by_cases hxy : x.toNat < y.toNat
      · rw [if_pos hxy] at h1
        exact absurd h1 (by simp)
      · by_cases hyx : y.toNat < x.toNat
        · rw [if_pos hyx] at h2
          exact absurd h2 (by simp)
        · rw [if_neg hxy, if_neg hyx] at h1
          rw [if_neg hyx, if_neg hxy] at h2
          have hxyeq : x = y := char_toNat_inj
            (Nat.le_antisymm (Nat.le_of_not_lt hyx) (Nat.le_of_not_lt hxy))
          rw [hxyeq, ih h1 h2]

/-- The string comparison is irreflexive. -/
theorem strLt_irrefl (s : String) : strLt s s = false :=
  charListLt_irrefl s.toList

/-- The string comparison is transitive. -/
theorem strLt_trans {a b c : String} (h1 : strLt a b = true)
    (h2 : strLt b c = true) : strLt a c = true :=
  charListLt_trans h1 h2

/-- Two strings neither of which is lexicographically below the other
are equal. -/
theorem strLt_antisymm {a b : String} (h1 : strLt a b = false)
    (h2 : strLt b a = false) : a = b :=
  string_toList_inj (charListLt_antisymm h1 h2)

/-- The MAX aggregate is empty only on the empty column. -/
theorem maxCode_eq_none {l : List String} (h : maxCode l = none) : l = [] := by
  cases l with
  | nil => rfl
  | cons c cs =>
    unfold maxCode at h
    cases hmc : maxCode cs with
    | none => simp only [hmc] at h; exact absurd h (by simp)
    | some m =>
      simp only [hmc] at h
      split at h <;> simp at h

/-- The MAX aggregate returns an element of the column that no other
element exceeds lexicographically. -/
theorem maxCode_spec (l : List String) :
    ∀ m, maxCode l = some m → m ∈ l ∧ ∀ c ∈ l, strLt m c = false := by
  induction l with
  | nil =>
    intro m h
    exact absurd h (by simp [maxCode])
  | cons c cs ih =>
    intro m h
    unfold maxCode at h
    cases hmc : maxCode cs with
    | none =>
      simp only [hmc] at h
      have hcs : cs = [] := maxCode_eq_none hmc
      subst hcs
      injection h with h
      subst h
      constructor
      · exact List.mem_cons_self c []
      · intro x hx
        have hxc : x = c := by simpa using hx
        subst hxc
        exact strLt_irrefl _
    | some m' =>
      simp only [hmc] at h
      obtain ⟨hmem, hmax⟩ := ih m' hmc
      by_cases hlt : strLt m' c = true
      · rw [if_pos hlt] at h
        injection h with h
        subst h
        constructor
        · exact List.mem_cons_self c cs
        · intro x hx
          rcases List.mem_cons.mp hx with rfl | hx
          · exact strLt_irrefl _
          · cases hcx : strLt c x with
            | false => rfl
            | true =>
              have ht := strLt_trans hlt hcx
              rw [hmax x hx] at ht
              exact absurd ht (by simp)
      · rw [if_neg hlt] at h
        injection h with h
        subst h
        constructor
        · exact List.mem_cons_of_mem c hmem
        · intro x hx
          rcases List.mem_cons.mp hx with rfl | hx
          · exact Bool.eq_false_iff.mpr hlt
          · exact hmax x hx

/-- C3 (amended): the allocated suffix is 1 exactly when no committed
code of any year matches the pattern; otherwise the new suffix is the
numeric suffix of the lexicographically greatest matching code across
all years, plus one — any element of the matching codes that no other
matching code exceeds determines the allocation. -/
theorem C3_amended_allocation :
    (∀ (store : Store) (d : Deal) (year : Nat) (d' : Deal) (s' : Store),
      d.dealCode = "" →
      (store.deals.map (·.dealCode)).filter matchesDealCode = [] →
      Deal.save store d year = .ok (d', s') →
      d'.dealCode = mkDealCode year 1) ∧
    (∀ (store : Store) (d : Deal) (year : Nat) (d' : Deal) (s' : Store)
        (m : String),
      d.dealCode = "" →
      m ∈ (store.deals.map (·.dealCode)).filter matchesDealCode →
      (∀ c ∈ (store.deals.map (·.dealCode)).filter matchesDealCode,
        strLt m c = false) →
      Deal.save store d year = .ok (d', s') →
      d'.dealCode = mkDealCode year (dealCodeSuffix m + 1)) := by
  constructor
  · intro store d year d' s' hcode hnone hsave
    obtain ⟨_, _, _, _, _, _, _, _, _, hdc, _, _⟩ := Deal.save_ok_inv hsave
    rw [hdc, if_pos hcode]
    unfold generateDealCode
    rw [hnone]
    rfl
  · intro store d year d' s' m hcode hmem hgreatest hsave
    obtain ⟨_, _, _, _, _, _, _, _, _, hdc, _, _⟩ := Deal.save_ok_inv hsave
    rw [hdc, if_pos hcode]
    unfold generateDealCode
    cases hmc : maxCode ((store.deals.map (·.dealCode)).filter matchesDealCode)
      with
    | none =>
      rw [maxCode_eq_none hmc] at hmem
      exact absurd hmem (List.not_mem_nil m)
    | some m0 =>
      obtain ⟨hm0mem, hm0max⟩ := maxCode_spec _ m0 hmc
      have hface : m0 = m := strLt_antisymm (hm0max m hmem) (hgreatest m0 hm0mem)
      rw [hface]

/-- Witness for C3 (amended): the empty store allocates suffix 1, and a
store holding two matching codes from different years (DEAL-2022-010
and DEAL-2023-005) continues from the lexicographically greatest one,
allocating suffix 6. -/
theorem C3_amended_allocation_witness :
    ({ freshDeal with dealCode := "DEAL-2024-001" } : Deal).dealCode =
      mkDealCode 2024 1 ∧
    ({ freshDeal with dealCode := "DEAL-2024-006" } : Deal).dealCode =
      mkDealCode 2024 6 := by
  constructor
  · exact C3_amended_allocation.1 emptyStore freshDeal 2024
      { freshDeal with dealCode := "DEAL-2024-001" }
      { deals := [{ freshDeal with dealCode := "DEAL-2024-001" }]
        history := [] } rfl rfl rfl
  · exact C3_amended_allocation.2 multiYearStore freshDeal 2024
      { freshDeal with dealCode := "DEAL-2024-006" }
      { deals := [prevYearDealB, prevYearDeal,
          { freshDeal with dealCode := "DEAL-2024-006" }]
        history := [] }
      "DEAL-2023-005" rfl (by decide) (by decide) rfl

/-- The field validators pass on a deal with non-negative amount,
probability in 0-100 and an acceptable lost_reason. -/
theorem cleanFieldsErr_none (d : Deal) (h1 : 0 ≤ d.amount)
    (h2 : d.lostReason = "" ∨ lostReasonChoices.contains d.lostReason = true)
    (h3 : 0 ≤ d.probability) (h4 : d.probability ≤ 100) :
    d.cleanFieldsErr = none := by
  unfold Deal.cleanFieldsErr
  have hb2 : (decide (d.probability < 0) || decide (100 < d.probability)) ≠
      true := by
    simp [not_lt.mpr h3, not_lt.mpr h4]
  have hb3 : (decide (d.lostReason ≠ "") &&
      !(lostReasonChoices.contains d.lostReason)) ≠ true := by
    intro hx
    rcases h2 with h | h
    · rw [h] at hx; simp at hx
    · rw [h] at hx; simp at hx
  rw [if_neg (not_lt.mpr h1), if_neg hb2, if_neg hb3]

/-- The model of `Deal.clean` passes when the probability band holds and
the close dates are ordered. -/
theorem cleanErr_none (d : Deal)
    (hlo : (stageBand d.stage).1 ≤ d.probability)
    (hhi : d.probability ≤ (stageBand d.stage).2)
    (hdates : ∀ a e, d.actualCloseDate = some a →
      d.expectedCloseDate = some e → ¬ a < e) :
    d.cleanErr = none := by
  unfold Deal.cleanErr
  have hb : (decide (d.probability < (stageBand d.stage).1) ||
      decide ((stageBand d.stage).2 < d.probability)) ≠ true := by
    simp [not_lt.mpr hlo, not_lt.mpr hhi]
  rw [if_neg hb]
  cases ha : d.actualCloseDate with
  | none => cases he : d.expectedCloseDate <;> rfl
  | some a =>
    cases he : d.expectedCloseDate with
    | none => rfl
    | some e => exact if_neg (hdates a e ha he)

/-- A save of a deal that already has a code and passes validation
commits exactly that deal. -/
theorem Deal.save_ok_of (store : Store) (d : Deal) (year : Nat)
    (hcode : d.dealCode ≠ "") (hfc : Deal.fullClean store.deals d = none) :
    Deal.save store d year =
      .ok (d, { store with deals := Store.upsert store.deals d }) := by
  unfold Deal.save
  rw [if_neg hcode]
  simp only [hfc]

/-- C4.  The claim: a transition to closed_lost without a lost_reason
fails with ValidationError.  Counterexample: no such check exists — the
call on `sampleOpenDeal` with no lost_reason key succeeds, storing the
empty string as lost_reason (with probability 0 and the actual close
date set). -/
theorem C4_counterexample :
    reqLostNoReason.lostReason = none ∧
    (changeStage sampleOpenStore sampleOpenDeal reqLostNoReason 7 60 50
        2024).okDeal.map
      (fun d => (d.stage, d.lostReason, d.probability, d.actualCloseDate)) =
      some (Stage.closed_lost, "", 0, some 50) :=
  ⟨rfl, rfl⟩

/-- C4 (amended): a transition to closed_lost succeeds whether or not a
lost_reason is supplied, as long as the supplied value is blank or one
of the lost-reason choices and the rest of the deal validates (amount
not negative, unique code, expected close date not after today); it
stores the supplied lost_reason (the empty string when absent), sets the
actual close date to today, and sets probability 0. -/
theorem C4_closed_lost (store : Store) (deal : Deal) (req : StageRequest)
    (actor : Nat) (now today : Int) (year : Nat)
    (hreq : req.stage = some "closed_lost")
    (hcode : deal.dealCode ≠ "")
    (hamount : 0 ≤ deal.amount)
    (hdate : ∀ e, deal.expectedCloseDate = some e → e ≤ today)
    (hlr : lostReasonValid (req.lostReason.getD ("")) = true)
    (huniq : Deal.uniqueErr store.deals deal = none) :
    ∃ d' s', changeStage store deal req actor now today year = .ok d' s' ∧
      d'.stage = .closed_lost ∧
      d'.lostReason = req.lostReason.getD ("") ∧
      d'.actualCloseDate = some today ∧
      d'.probability = 0 := by
  have hgd : req.stage.getD ("") = "closed_lost" := by rw [hreq]; rfl
  set d2 := applyStageUpdate deal req .closed_lost today with hd2def
  have hlr2 : d2.lostReason = "" ∨ lostReasonChoices.contains d2.lostReason
      = true := by
    unfold lostReasonValid at hlr
    have h2lr : d2.lostReason = req.lostReason.getD ("") := rfl
    rw [h2lr]
    rcases Bool.or_eq_true_iff.mp hlr with h | h
    · exact Or.inl (by simpa using h)
    · exact Or.inr h
  have hcf : d2.cleanFieldsErr = none := by
    refine cleanFieldsErr_none d2 ?_ hlr2 ?_ ?_
    · exact hamount
    · exact le_refl 0
    · exact (by decide : (0:Int) ≤ 100)
  have hce : d2.cleanErr = none := by
    refine cleanErr_none d2 ?_ ?_ ?_
    · exact le_refl 0
    · exact (by decide : (0:Int) ≤ 5)
    · intro a e ha he
      have ha' : (some today : Option Int) = some a := ha
      have he' : deal.expectedCloseDate = some e := he
      have : today = a := by injection ha'
      subst this
      exact not_lt.mpr (hdate e he')
  have hfc : Deal.fullClean store.deals d2 = none := by
    unfold Deal.fullClean
    rw [hcf, hce]
    exact huniq
  refine ⟨d2,
    { deals := Store.upsert store.deals d2
      history := stageHistRecord deal .closed_lost actor now
        (req.notes.getD ("")) :: store.history }, ?_, rfl, rfl, rfl, rfl⟩
  unfold changeStage
  rw [hgd]
  rw [if_neg (by decide : ¬("closed_lost" = ""))]
  have hp : parseStage "closed_lost" = some Stage.closed_lost := rfl
  simp only [hp]
  have hsave := Deal.save_ok_of
    { store with
        history := (stageHistRecord deal .closed_lost actor now
          (req.notes.getD ("")) :: store.history) }
    d2 year hcode hfc
  simp only [hsave]

/-- C5: after any committed transition or save the probability lies in
the band of the stage, and a deal violating the band can never be
committed — validation raises before anything is written. -/
theorem C5_band_invariant (store : Store) (deal : Deal) (req : StageRequest)
    (actor : Nat) (now today : Int) (year : Nat) (d dd d' : Deal)
    (s' ss : Store) :
    (changeStage store deal req actor now today year = .ok d' s' →
      d'.inBand) ∧
    (Deal.save store d year = .ok (dd, ss) → dd.inBand) ∧
    (¬ d.inBand → Deal.save store d year ≠ .ok (dd, ss)) := by
  refine ⟨?_, ?_, ?_⟩
  · intro h
    obtain ⟨st, _, _, _, hfc, _⟩ := changeStage_ok_inv h
    exact fullClean_none_inBand hfc
  · intro h
    obtain ⟨hfc, _⟩ := Deal.save_ok_inv h
    exact fullClean_none_inBand hfc
  · intro hb
    exact save_not_ok_of_not_inBand hb dd ss

/-- Witness for C5 at concrete transitions and saves. -/
theorem C5_band_invariant_witness :
    sampleWonAfter.inBand ∧ freshSaved.inBand ∧
    Deal.save emptyStore badBandDeal 2024 ≠ .ok (badBandDeal, emptyStore) := by
  refine ⟨?_, ?_, ?_⟩
  · exact (C5_band_invariant sampleWonStore sampleWonDeal reqQualified 7 100 50
      2024 freshDeal freshDeal sampleWonAfter sampleWonAfterStore
      emptyStore).1 rfl
  · exact (C5_band_invariant emptyStore sampleWonDeal reqQualified 7 100 50
      2024 freshDeal freshSaved sampleWonAfter freshSavedStore
      freshSavedStore).2.1 rfl
  · exact (C5_band_invariant emptyStore sampleWonDeal reqQualified 7 100 50
      2024 badBandDeal badBandDeal sampleWonAfter emptyStore
      emptyStore).2.2 (by decide)

/-- C6: every successful transition commits exactly one new history
record, whose from_stage is the stage of the deal immediately before the
call and whose to_stage is the requested stage. -/
theorem C6_audit_record (store : Store) (deal : Deal) (req : StageRequest)
    (actor : Nat) (now today : Int) (year : Nat) (d' : Deal) (s' : Store)
    (h : changeStage store deal req actor now today year = .ok d' s') :
    ∃ st, parseStage (req.stage.getD ("")) = some st ∧ d'.stage = st ∧
      s'.history =
        { dealId := deal.id, fromStage := deal.stage, toStage := st
          changedBy := actor, changedAt := now
          notes := req.notes.getD ("") } :: store.history := by
  obtain ⟨st, hp, hstage, _, _, hh, _⟩ := changeStage_ok_inv h
  exact ⟨st, hp, hstage, hh⟩

/-- Witness for C6 at the concrete transition of `sampleWonDeal`. -/
theorem C6_audit_record_witness :
    ∃ st, parseStage (reqQualified.stage.getD ("")) = some st ∧
      sampleWonAfter.stage = st ∧
      sampleWonAfterStore.history =
        { dealId := sampleWonDeal.id, fromStage := sampleWonDeal.stage
          toStage := st, changedBy := 7, changedAt := 100
          notes := reqQualified.notes.getD ("") } :: sampleWonStore.history :=
  C6_audit_record sampleWonStore sampleWonDeal reqQualified 7 100 50 2024
    sampleWonAfter sampleWonAfterStore rfl

/-- C7.  The claim: the probability is set to the stage default unless
the caller supplies an explicit probability within the band, in which
case the caller value is kept.  Counterexample: the action never reads a
caller probability — a request carrying probability 45 (inside the
qualified band 30-50) still commits the default 40. -/
theorem C7_counterexample :
    reqQualified45.probability = some 45 ∧
    (stageBand .qualified).1 ≤ 45 ∧ (45:Int) ≤ (stageBand .qualified).2 ∧
    (changeStage sampleLeadStore sampleLeadDeal reqQualified45 7 60 50
        2024).okDeal.map Deal.probability = some 40 ∧
    (40 : Int) ≠ 45 :=
  ⟨rfl, by decide, by decide, rfl, by decide⟩

/-- C7 (amended): every successful transition sets the probability to
the stage default of the target stage; a probability supplied in the
request body is ignored — the outcome does not depend on it at all. -/
theorem C7_probability_default (store : Store) (deal : Deal)
    (req : StageRequest) (actor : Nat) (now today : Int) (year : Nat)
    (p : Option Int) (d' : Deal) (s' : Store) :
    (changeStage store deal req actor now today year = .ok d' s' →
      d'.probability = stageDefault d'.stage) ∧
    changeStage store deal { req with probability := p } actor now today year =
      changeStage store deal req actor now today year := by
  constructor
  · intro h
    obtain ⟨st, _, hstage, hprob, _⟩ := changeStage_ok_inv h
    rw [hprob, hstage]
  · cases req
    rfl

/-- Witness for C7 (amended) at the concrete lead deal. -/
theorem C7_probability_default_witness :
    sampleLeadAfter.probability = stageDefault sampleLeadAfter.stage ∧
    changeStage sampleLeadStore sampleLeadDeal
        { reqQualified with probability := some 45 } 7 60 50 2024 =
      changeStage sampleLeadStore sampleLeadDeal reqQualified 7 60 50 2024 :=
  ⟨(C7_probability_default sampleLeadStore sampleLeadDeal reqQualified45 7 60
      50 2024 none sampleLeadAfter
      { deals := [sampleLeadAfter]
        history := [stageHistRecord sampleLeadDeal .qualified 7 60 ""] }).1 rfl,
    (C7_probability_default sampleLeadStore sampleLeadDeal reqQualified 7 60 50
      2024 (some 45) sampleLeadAfter sampleLeadStore).2⟩

/-- C8: on an empty store the first save in 2024 allocates DEAL-2024-001
and a second save after the first is committed allocates
DEAL-2024-002. -/
theorem C8_code_sequence :
    (Deal.save emptyStore freshDeal 2024).toOption.map
      (fun p => p.1.dealCode) = some "DEAL-2024-001" ∧
    ((Deal.save emptyStore freshDeal 2024).toOption.bind
      (fun p => (Deal.save p.2 freshDealB 2024).toOption)).map
        (fun p => p.1.dealCode) = some "DEAL-2024-002" :=
  ⟨by decide, by decide⟩

/-- C9: the exclusion filter of active_deals matches the stage strings
won and lost, which no stage value ever equals, so the property returns
every active deal — deals in closed_won or closed_lost included. -/
theorem C9_active_deals_includes_closed :
    (∀ deals : List Deal,
      activeDeals deals = deals.filter (fun d => d.isActive)) ∧
    activeDeals [sampleWonDeal] = [sampleWonDeal] := by
  constructor
  · intro deals
    unfold activeDeals
    refine List.filter_eq_self.mpr ?_
    intro a _
    cases h : a.stage <;> rfl
  · rfl

/-- C10.  The claim: for every entity with soft-delete support,
soft_delete persists only is_active false and the deletion time and
leaves every other field unchanged, restore symmetrically.
Counterexample: the save call inside the mixin dispatches to the save
of the concrete model, which runs full_clean; the clean method of Task
rejects a past-due non-completed task, so soft_delete on `overdueTask`
at instant 50 raises and persists nothing at all — is_active is never
cleared. -/
theorem C10_counterexample :
    overdueTask.isActive = true ∧
    taskCleanOk 50
      { overdueTask with isActive := false, deletedAt := some 50 } = false ∧
    softDelete (taskCleanOk 50) overdueTask overdueTask 50 = none :=
  ⟨rfl, rfl, rfl⟩

/-- C10 (amended): when the validation of the concrete model passes on
the updated in-memory instance, soft_delete commits a row differing
from the stored one only in is_active (false) and deleted_at (now) —
every other field unchanged — and restore symmetrically commits only
is_active true and deleted_at none; when that validation fails, the
save raises and nothing at all is persisted. -/
theorem C10_soft_delete_frame (α : Type) (clean : SoftDeleteEntity α → Bool)
    (db self : SoftDeleteEntity α) (now : Int) :
    (clean { self with isActive := false, deletedAt := some now } = true →
      softDelete clean db self now =
        some { db with isActive := false, deletedAt := some now }) ∧
    (clean { self with isActive := false, deletedAt := some now } = false →
      softDelete clean db self now = none) ∧
    (clean { self with isActive := true, deletedAt := none } = true →
      restoreEntity clean db self =
        some { db with isActive := true, deletedAt := none }) ∧
    (clean { self with isActive := true, deletedAt := none } = false →
      restoreEntity clean db self = none) := by
  refine ⟨?_, ?_, ?_, ?_⟩ <;> intro h <;>
    simp [softDelete, restoreEntity, saveActiveDeleted, h]

/-- Witness for C10 (amended) at concrete tasks: a task with no due
date soft-deletes and restores with only the two fields changed, while
the overdue pending task is rejected on both paths. -/
theorem C10_soft_delete_frame_witness :
    softDelete (taskCleanOk 50) freeTask freeTask 50 =
      some { freeTask with isActive := false, deletedAt := some 50 } ∧
    restoreEntity (taskCleanOk 50) freeTask freeTask =
      some { freeTask with isActive := true, deletedAt := none } ∧
    softDelete (taskCleanOk 50) overdueTask overdueTask 50 = none ∧
    restoreEntity (taskCleanOk 50) overdueTask overdueTask = none := by
  refine ⟨?_, ?_, ?_, ?_⟩
  · exact (C10_soft_delete_frame TaskFields (taskCleanOk 50) freeTask freeTask
      50).1 rfl
  · exact (C10_soft_delete_frame TaskFields (taskCleanOk 50) freeTask freeTask
      50).2.2.1 rfl
  · exact (C10_soft_delete_frame TaskFields (taskCleanOk 50) overdueTask
      overdueTask 50).2.1 rfl
  · exact (C10_soft_delete_frame TaskFields (taskCleanOk 50) overdueTask
      overdueTask 50).2.2.2 rfl

/-- Witness for C4 (amended) at the concrete closed_lost transition with
lost_reason price. -/
theorem C4_closed_lost_witness :
    ∃ d' s', changeStage sampleOpenStore sampleOpenDeal reqLostPrice 7 60 50
        2024 = .ok d' s' ∧
      d'.stage = .closed_lost ∧
      d'.lostReason = reqLostPrice.lostReason.getD ("") ∧
      d'.actualCloseDate = some 50 ∧
      d'.probability = 0 :=
  C4_closed_lost sampleOpenStore sampleOpenDeal reqLostPrice 7 60 50 2024
    rfl (by decide) (by decide) (fun e he => Option.noConfusion he)
    (by decide) (by decide)
